import Mathlib

/-!
Verification of the interactive history-search session core and the batch
filter pipeline of `src/command/client/search.rs`.

The session state (`State`), the requery function (`query_results`), the key
event interpreter (`key_handler`), the per-row duration/ago formatting
(`State.durations`) and the batch predicate chain (`keepRecord`) are shallowly
embedded below.  External collaborators (the history store, the
`humantime`/`chrono_english` crates) are not part of the source tree; they are
modelled from the spec where noted and otherwise abstracted as parameters.
Machine integers: the only place where `usize` overflow matters is
`results.len() - 1`, modelled by `usizeSub1` (wrap-around semantics of a
release build, see its doc comment).
-/

set_option linter.unusedVariables false

/-- Modelled from the spec: `SearchMode` is an opaque enumeration (supplied by
the settings collaborator) that selects the store's matching algorithm; the
code under verification only passes it through to the store. -/
inductive SearchMode where
  | mode
deriving DecidableEq

/-- A history record: command text, working directory, exit code, duration in
nanoseconds (`-1` = still-running sentinel) and a UTC timestamp.  Instants and
durations are modelled as integers counting nanoseconds. -/
structure History where
  command : String
  cwd : String
  exit : Int
  duration : Int
  timestamp : Int
deriving DecidableEq

/-- Modelled from the spec: the external history store (`Database`
collaborator).  `list limit unique` and `search limit mode query` either
return the ordered result sequence or fail with a store error. -/
structure Database where
  list : Option Nat → Bool → Except String (List History)
  search : Option Nat → SearchMode → String → Except String (List History)

/-- The session state (`struct State` in the source): the typed input buffer,
the current result list, and the selected index of the results list widget
(`results_state.selected()`). -/
structure State where
  input : String
  results : List History
  selection : Option Nat
deriving DecidableEq

/-! ### String helpers

The source uses `str::split(' ')`, `String::pop`, `slice::join(" ")` and
`str::replace`.  They are embedded structurally over `List Char` so that every
definition evaluates by kernel reduction. -/

/-- Rust `str::split(sep)` for a single-character separator: splits at every
occurrence and keeps empty segments (`"" → [""]`, `"a " → ["a", ""]`). -/
def splitChars (sep : Char) : List Char → List (List Char)
  | [] => [[]]
  | c :: rest =>
    if c = sep then [] :: splitChars sep rest
    else
      match splitChars sep rest with
      | [] => [[c]]
      | w :: ws => (c :: w) :: ws

/-- `input.split(' ').collect::<Vec<&str>>()` from the source. -/
def splitOnSpace (s : String) : List String :=
  (splitChars ' ' s.data).map String.mk

/-- Rust `slice::join(" ")`. -/
def joinWords : List String → String
  | [] => ""
  | [w] => w
  | w :: ws => w ++ " " ++ joinWords ws

/-- Rust `String::pop` (as a pure function): drop the last character. -/
def strPop (s : String) : String :=
  String.mk s.data.dropLast

/-- Boolean check that `p` is an initial segment of `cs`. -/
def strStartsWith : List Char → List Char → Bool
  | [], _ => true
  | _ :: _, [] => false
  | p :: ps, c :: cs => p = c && strStartsWith ps cs

/-- Fuelled worker for `strReplace`; each step consumes at least one input
character, so fuel `cs.length` is always enough. -/
def replaceFuel (pat sub : List Char) : Nat → List Char → List Char
  | 0, rest => rest
  | _ + 1, [] => []
  | f + 1, c :: rest =>
    if strStartsWith pat (c :: rest) && !pat.isEmpty then
      sub ++ replaceFuel pat sub f (List.drop (pat.length - 1) rest)
    else
      c :: replaceFuel pat sub f rest

/-- Rust `str::replace(pat, sub)`: replace every (non-overlapping, leftmost)
occurrence of `pat` by `sub`. -/
def strReplace (s pat sub : String) : String :=
  String.mk (replaceFuel pat.data sub.data s.data.length s.data)

/-- The abbreviation chain applied to the first formatted token in
`State::durations`, in source order: days→d, day→d, weeks→w, week→w,
months→mo, month→mo, years→y, year→y. -/
def abbrevUnits (s : String) : String :=
  strReplace (strReplace (strReplace (strReplace (strReplace (strReplace
    (strReplace (strReplace s "days" "d") "day" "d") "weeks" "w") "week" "w")
    "months" "mo") "month" "mo") "years" "y") "year" "y"

/-- `formatted.split(' ')` followed by taking element `[0]`: the first
space-separated token of a string. -/
def firstToken (s : String) : String :=
  String.mk ((splitChars ' ' s.data).headD [])

/-! ### Duration/ago formatting -/

/-- One unit token of the humanized rendering, omitted when the value is 0. -/
def durTok (v : Nat) (unitOne unitMany : String) : List String :=
  if v = 0 then [] else [toString v ++ (if v = 1 then unitOne else unitMany)]

/-- Modelled from the spec: `humantime::format_duration` (external crate, not
in the source tree) renders a duration as a space-separated sequence of unit
tokens, largest unit first, with no space inside a token ("2years 3days 4h"),
and renders the zero duration as `"0s"`. -/
def formatDurationStr (nanos : Nat) : String :=
  if nanos = 0 then "0s"
  else
    let secs := nanos / 1000000000
    let sub := nanos % 1000000000
    let years := secs / 31557600
    let ydays := secs % 31557600 / 86400
    let months := ydays / 30
    let days := ydays % 30
    let hours := secs % 86400 / 3600
    let minutes := secs % 3600 / 60
    let seconds := secs % 60
    let millis := sub / 1000000
    let micros := sub % 1000000 / 1000
    let nrest := sub % 1000
    joinWords
      (durTok years "year" "years" ++ durTok months "month" "months" ++
       durTok days "day" "days" ++ durTok hours "h" "h" ++
       durTok minutes "m" "m" ++ durTok seconds "s" "s" ++
       durTok millis "ms" "ms" ++ durTok micros "us" "us" ++
       durTok nrest "ns" "ns")

/-- The duration column of one row: `Duration::from_millis(max(duration, 0)
as u64 / 1_000_000)` humanized, first token, abbreviated. -/
def durationStringOf (d : Int) : String :=
  let ms : Nat := (max d 0).toNat / 1000000
  abbrevUnits (firstToken (formatDurationStr (ms * 1000000)))

/-- The "ago" column of one row: `now.sub(timestamp)` (a signed chrono
duration), converted with `to_std().unwrap_or(Duration::new(0, 0))` — i.e. a
negative elapsed time is clamped to zero — then humanized, first token,
abbreviated, and suffixed `" ago"`. -/
def agoStringOf (now ts : Int) : String :=
  let ago : Int := now - ts
  let agoStd : Nat := if ago < 0 then 0 else ago.toNat
  abbrevUnits (firstToken (formatDurationStr agoStd)) ++ " ago"

/-- `State::durations` from the source, with the clock (`Utc::now()`) passed
explicitly: one `(duration, ago)` string pair per result row. -/
def State.durations (st : State) (now : Int) : List (String × String) :=
  st.results.map (fun h => (durationStringOf h.duration, agoStringOf now h.timestamp))

/-! ### Requery and the key event interpreter -/

/-- `query_results` from the source: list when the input is empty, search
otherwise; on success replace the results and reset the selection to
`Some(0)` for a non-empty result set and `None` for an empty one.  A store
failure is propagated (the source uses `?`). -/
def query_results (app : State) (sm : SearchMode) (db : Database) :
    Except String State :=
  match (if app.input = "" then db.list (some 200) true
         else db.search (some 200) sm app.input) with
  | .error e => .error e
  | .ok results =>
    .ok { app with
          results := results,
          selection := if results.isEmpty then none else some 0 }

/-- The key events the interpreter distinguishes (`termion::event::Key`);
`unsupported` stands for every key caught by the source's wildcard arm. -/
inductive Key where
  | esc
  | char (c : Char)
  | ctrl (c : Char)
  | alt (c : Char)
  | backspace
  | down
  | up
  | unsupported
deriving DecidableEq

/-- Outcome of one `key_handler` invocation.  `ok st out` is a normal return
(`out = some s` emits `s` and ends the session, `out = none` continues).
`panicked` models `.unwrap()` aborting by panic when a requery fails — the
source's `key_handler` returns `Option<String>` and has no error channel.
`propagated` models what `?`-style propagation of a store error as an error
return value would look like; `key_handler` never produces it. -/
inductive KeyOutcome where
  | ok (st : State) (out : Option String)
  | panicked (msg : String)
  | propagated (msg : String)
deriving DecidableEq

/-- The shared shape of the four requery arms of `key_handler`:
`query_results(app, search_mode, db).await.unwrap()` — a store failure panics
rather than being returned. -/
def afterRequery (app : State) (sm : SearchMode) (db : Database) : KeyOutcome :=
  match query_results app sm db with
  | .ok st => .ok st none
  | .error e => .panicked e

/-- Usize `n - 1` as computed by `app.results.len() - 1` in a release build:
subtraction wraps modulo `2^64`, so an empty list yields `2^64 - 1` (a debug
build would abort on the underflow instead). -/
def usizeSub1 (n : Nat) : Nat :=
  if n = 0 then 18446744073709551615 else n - 1

/-- The `Key::Down | Key::Ctrl('n')` arm: move the selection toward index 0,
stopping at 0; with no current selection, select index 0. -/
def moveDown (app : State) : KeyOutcome :=
  let i := match app.selection with
    | some i => if i = 0 then 0 else i - 1
    | none => 0
  .ok { app with selection := some i } none

/-- The `Key::Up | Key::Ctrl('p')` arm: move the selection toward
`len - 1`, stopping at `len - 1`; with no current selection, select index 0. -/
def moveUp (app : State) : KeyOutcome :=
  let i := match app.selection with
    | some i => if usizeSub1 app.results.length ≤ i
                then usizeSub1 app.results.length else i + 1
    | none => 0
  .ok { app with selection := some i } none

/-- `key_handler` from the source, arm for arm and in source order.  The
`Key::Alt(c)` digit arm's `selected()?` early-returns `None` (no emission, no
mutation); its `to_digit(10)` is evaluated under the `'1'..='9'` guard. -/
def key_handler (input : Key) (sm : SearchMode) (db : Database) (app : State) :
    KeyOutcome :=
  match input with
  | .esc => .ok app (some "")
  | .char c =>
    if c = '\n' then
      let i := app.selection.getD 0
      .ok app (some (((app.results.get? i).map History.command).getD app.input))
    else
      afterRequery { app with input := app.input.push c } sm db
  | .alt c =>
    if '1' ≤ c ∧ c ≤ '9' then
      match app.selection with
      | none => .ok app none
      | some k =>
        let d := c.toNat - '0'.toNat
        .ok app (some (((app.results.get? (k + d)).map History.command).getD app.input))
    else if c = '\x7f' then
      let words := splitOnSpace app.input
      if words.isEmpty then .ok app none
      else if words.length = 1 then
        afterRequery { app with input := "" } sm db
      else
        afterRequery { app with input := joinWords words.dropLast } sm db
    else .ok app none
  | .backspace => afterRequery { app with input := strPop app.input } sm db
  | .ctrl c =>
    if c = 'c' ∨ c = 'd' ∨ c = 'g' then .ok app (some "")
    else if c = 'u' then afterRequery { app with input := "" } sm db
    else if c = 'n' then moveDown app
    else if c = 'p' then moveUp app
    else .ok app none
  | .down => moveDown app
  | .up => moveUp app
  | .unsupported => .ok app none

/-- The input buffer after the `Key::Alt('\u{7f}')` (Alt+Backspace) arm:
split on the space character, drop the final segment, rejoin; a single
segment collapses to the empty string. -/
def wordDeleted (s : String) : String :=
  let words := splitOnSpace s
  if words.length = 1 then "" else joinWords words.dropLast

/-- Splitting at every character satisfying `p`, keeping empty segments
(generalizes `splitChars` to a character predicate). -/
def splitWhen (p : Char → Bool) : List Char → List (List Char)
  | [] => [[]]
  | c :: rest =>
    if p c then [] :: splitWhen p rest
    else
      match splitWhen p rest with
      | [] => [[c]]
      | w :: ws => (c :: w) :: ws

/-- Spec-side definition, following the claim's words: the whitespace-delimited
words of a string (what "removing the last whitespace-delimited word" ranges
over).  Compared against the source's space-character split. -/
def wsWords (s : String) : List String :=
  ((splitWhen (fun c => c.isWhitespace) s.data).map String.mk).filter
    (fun w => w != "")

/-! ### Batch filter pipeline -/

/-- The predicate arguments of the non-interactive path of `run` (after the
`cwd = "."` resolution, which happens before the filter). -/
structure FilterArgs where
  exit : Option Int
  exclude_exit : Option Int
  exclude_cwd : Option String
  dir : Option String
  before : Option String
  after : Option String

/-- `if let Some(x) = o { if !p(x) { return false } }`: an absent argument
imposes no constraint. -/
def optCheck (o : Option α) (p : α → Bool) : Bool :=
  match o with
  | some x => p x
  | none => true

/-- The filter closure of the batch path of `run`, record by record.  The
`before`/`after` bounds go through `chrono_english::parse_date_string`
(external crate), abstracted as `parse : String → Option Int` (`none` = parse
error): a record survives a bound only when the parse succeeded and the
timestamp lies on the kept side (`before.is_err() || timestamp > before`
drops; `after.is_err() || timestamp < after` drops). -/
def keepRecord (parse : String → Option Int) (args : FilterArgs)
    (h : History) : Bool :=
  optCheck args.exit (fun e => h.exit == e) &&
  optCheck args.exclude_exit (fun e => h.exit != e) &&
  optCheck args.exclude_cwd (fun d => h.cwd != d) &&
  optCheck args.dir (fun d => h.cwd == d) &&
  optCheck args.before (fun t =>
    match parse t with
    | none => false
    | some tv => decide (h.timestamp ≤ tv)) &&
  optCheck args.after (fun t =>
    match parse t with
    | none => false
    | some tv => decide (tv ≤ h.timestamp))

/-- The whole batch predicate chain over a result sequence. -/
def batchFilter (parse : String → Option Int) (args : FilterArgs)
    (l : List History) : List History :=
  l.filter (keepRecord parse args)

/-! ### Concrete fixtures used by witnesses and counterexamples -/

/-- A store that always succeeds with an empty result set. -/
def dbEmptyOk : Database :=
  { list := fun _ _ => .ok [], search := fun _ _ _ => .ok [] }

/-- A store whose every call fails. -/
def dbBoom : Database :=
  { list := fun _ _ => .error "boom", search := fun _ _ _ => .error "boom" }

/-- A record fixture with a given command text. -/
def hist (cmd : String) : History :=
  { command := cmd, cwd := "/", exit := 0, duration := 0, timestamp := 0 }

/-- A store that always succeeds with two records. -/
def dbTwo : Database :=
  { list := fun _ _ => .ok [hist "one", hist "two"],
    search := fun _ _ _ => .ok [hist "one", hist "two"] }

/-- The session state right after a requery that returned no results. -/
def emptyApp : State := { input := "", results := [], selection := none }

/-- A session state with two results and row 0 selected. -/
def twoApp : State :=
  { input := "tw", results := [hist "one", hist "two"], selection := some 0 }

/-- Batch filter arguments with only a `before` bound. -/
def argsBefore : FilterArgs :=
  { exit := none, exclude_exit := none, exclude_cwd := none, dir := none,
    before := some "yesterday", after := none }

/-- A record whose timestamp lies 5 seconds in the future of `now = 0`. -/
def histFuture : History :=
  { command := "f", cwd := "/", exit := 0, duration := 0,
    timestamp := 5000000000 }

/-- A session state holding the future-dated record. -/
def futureApp : State :=
  { input := "", results := [histFuture], selection := some 0 }

/-! ### Supporting lemmas -/

/-- A successful `query_results` call produces exactly the input state with
replaced results and the selection reset by emptiness. -/
theorem query_results_ok_cases (app : State) (sm : SearchMode) (db : Database)
    (st : State) (h : query_results app sm db = .ok st) :
    ∃ rs, st = { app with
                 results := rs,
                 selection := if rs.isEmpty then none else some 0 } := by
  unfold query_results at h
  cases hdb : (if app.input = "" then db.list (some 200) true
               else db.search (some 200) sm app.input) with
  | error e => rw [hdb] at h; exact (Except.noConfusion h)
  | ok rs =>
    rw [hdb] at h
    simp only [Except.ok.injEq] at h
    exact ⟨rs, h.symm⟩

/-- Re-selecting the index that is already selected leaves the state
unchanged. -/
theorem update_selection_eq (app : State) (k : Nat)
    (h : app.selection = some k) :
    ({ app with selection := some k } : State) = app := by
  cases app with
  | mk i r s =>
    change s = some k at h
    subst h
    rfl

/-- Support: a successful requery establishes "no selection implies no
results". -/
theorem requery_selNone_imp_empty (app : State) (sm : SearchMode)
    (db : Database) (st : State) (h : query_results app sm db = .ok st) :
    st.selection = none → st.results = [] := by
  obtain ⟨rs, rfl⟩ := query_results_ok_cases app sm db st h
  intro hn
  cases rs with
  | nil => rfl
  | cons a l => simp at hn

/-- Support: a requery arm that returns normally establishes "no selection
implies no results". -/
theorem afterRequery_inv (app2 : State) (sm : SearchMode) (db : Database)
    (st : State) (out : Option String)
    (h : afterRequery app2 sm db = .ok st out) :
    st.selection = none → st.results = [] := by
  unfold afterRequery at h
  cases hq : query_results app2 sm db with
  | ok st1 =>
    rw [hq] at h
    cases h
    exact requery_selNone_imp_empty _ _ _ _ hq
  | error e => rw [hq] at h; exact (KeyOutcome.noConfusion h)

/-- Support: a Down move always leaves some row selected. -/
theorem moveDown_inv (app st : State) (out : Option String)
    (h : moveDown app = .ok st out) : st.selection = none → st.results = [] := by
  unfold moveDown at h
  cases h
  intro hn
  simp at hn

/-- Support: an Up move always leaves some row selected. -/
theorem moveUp_inv (app st : State) (out : Option String)
    (h : moveUp app = .ok st out) : st.selection = none → st.results = [] := by
  unfold moveUp at h
  cases h
  intro hn
  simp at hn

/-- Support: every key transition that returns normally preserves the
reachability invariant "no selection implies no results" (established at
session start by the initial requery). -/
theorem key_handler_preserves_selNone_imp_empty (k : Key) (sm : SearchMode)
    (db : Database) (app st : State) (out : Option String)
    (hinv : app.selection = none → app.results = [])
    (h : key_handler k sm db app = .ok st out) :
    st.selection = none → st.results = [] := by
  cases k with
  | esc => simp only [key_handler] at h; cases h; exact hinv
  | char c =>
    simp only [key_handler] at h
    by_cases hc : c = '\n'
    · rw [if_pos hc] at h; cases h; exact hinv
    · rw [if_neg hc] at h; exact afterRequery_inv _ _ _ _ _ h
  | alt c =>
    simp only [key_handler] at h
    by_cases hg : '1' ≤ c ∧ c ≤ '9'
    · rw [if_pos hg] at h
      cases hsel : app.selection with
      | none => rw [hsel] at h; cases h; exact hinv
      | some k => rw [hsel] at h; cases h; exact hinv
    · rw [if_neg hg] at h
      by_cases hb : c = '\x7f'
      · rw [if_pos hb] at h
        by_cases he : (splitOnSpace app.input).isEmpty
        · rw [if_pos he] at h; cases h; exact hinv
        · rw [if_neg he] at h
          by_cases hl : (splitOnSpace app.input).length = 1
          · rw [if_pos hl] at h; exact afterRequery_inv _ _ _ _ _ h
          · rw [if_neg hl] at h; exact afterRequery_inv _ _ _ _ _ h
      · rw [if_neg hb] at h; cases h; exact hinv
  | backspace =>
    simp only [key_handler] at h
    exact afterRequery_inv _ _ _ _ _ h
  | ctrl c =>
    simp only [key_handler] at h
    by_cases h1 : c = 'c' ∨ c = 'd' ∨ c = 'g'
    · rw [if_pos h1] at h; cases h; exact hinv
    · rw [if_neg h1] at h
      by_cases h2 : c = 'u'
      · rw [if_pos h2] at h; exact afterRequery_inv _ _ _ _ _ h
      · rw [if_neg h2] at h
        by_cases h3 : c = 'n'
        · rw [if_pos h3] at h; exact moveDown_inv _ _ _ h
        · rw [if_neg h3] at h
          by_cases h4 : c = 'p'
          · rw [if_pos h4] at h; exact moveUp_inv _ _ _ h
          · rw [if_neg h4] at h; cases h; exact hinv
  | down => simp only [key_handler] at h; exact moveDown_inv _ _ _ h
  | up => simp only [key_handler] at h; exact moveUp_inv _ _ _ h
  | unsupported => simp only [key_handler] at h; cases h; exact hinv

/-- Support: the Alt+Backspace arm requeries with the last space-separated
segment dropped (`wordDeleted`). -/
theorem altBackspace_requery (sm : SearchMode) (db : Database) (app : State)
    (hw : splitOnSpace app.input ≠ []) :
    key_handler (.alt '\x7f') sm db app
      = afterRequery { app with input := wordDeleted app.input } sm db := by
  simp only [key_handler, if_true]
  unfold wordDeleted
  cases hsp : splitOnSpace app.input with
  | nil => exact absurd hsp hw
  | cons a l =>
    cases l with
    | nil => simp
    | cons b l2 => simp

/-! ### Claims -/

/-- Claim C1: after every successful requery (`query_results` returning `Ok`),
the selection equals `Some 0` if the new result list is non-empty and `None`
if it is empty. -/
theorem C1_requery_resets_selection (app : State) (sm : SearchMode)
    (db : Database) (st : State) (h : query_results app sm db = .ok st) :
    (st.results ≠ [] → st.selection = some 0) ∧
    (st.results = [] → st.selection = none) := by
  obtain ⟨rs, rfl⟩ := query_results_ok_cases app sm db st h
  constructor <;> intro h' <;> cases rs <;> simp_all

theorem C1_witness :
    ({ input := "", results := [hist "one", hist "two"],
       selection := some 0 } : State).selection = some 0 :=
  (C1_requery_resets_selection emptyApp SearchMode.mode dbTwo
      { input := "", results := [hist "one", hist "two"], selection := some 0 }
      rfl).1 (by decide)

/-- Claim C2 (amended): when the store call behind a requery-performing key
(printable character, Backspace, Alt+Backspace, Ctrl-U) fails, the error is
not absorbed and the key handling is not a no-op — but the handler does not
return the error as an error result (its return type has no error channel):
it unwraps the failed `Result`, i.e. it panics, ending the interactive
session by unwind. -/
theorem C2_requery_failure_panics (sm : SearchMode) (db : Database)
    (app : State) (c : Char) (e : String) :
    (c ≠ '\n' →
      query_results { app with input := app.input.push c } sm db = .error e →
      key_handler (.char c) sm db app = .panicked e) ∧
    (query_results { app with input := strPop app.input } sm db = .error e →
      key_handler .backspace sm db app = .panicked e) ∧
    (query_results { app with input := "" } sm db = .error e →
      key_handler (.ctrl 'u') sm db app = .panicked e) ∧
    (splitOnSpace app.input ≠ [] →
      query_results { app with input := wordDeleted app.input } sm db = .error e →
      key_handler (.alt '\x7f') sm db app = .panicked e) := by
  refine ⟨?_, ?_, ?_, ?_⟩
  · intro hc hq
    simp only [key_handler, if_neg hc, afterRequery, hq]
  · intro hq
    simp only [key_handler, afterRequery, hq]
  · intro hq
    simp only [key_handler, if_true]
    simp only [afterRequery, hq]
    rw [if_neg (by decide : ¬ ('u' = 'c' ∨ 'u' = 'd' ∨ 'u' = 'g'))]
  · intro hw hq
    rw [altBackspace_requery sm db app hw]
    simp only [afterRequery, hq]

theorem C2_witness :
    key_handler .backspace SearchMode.mode dbBoom
        { input := "ab", results := [], selection := none }
      = .panicked "boom" :=
  (C2_requery_failure_panics SearchMode.mode dbBoom
      { input := "ab", results := [], selection := none } 'a' "boom").2.1 rfl

/-- Claim C2 counterexample: with a failing store, typing a character makes
`key_handler` panic (`.unwrap()`); the claimed behavior — the error coming
out of the key handler as an error result — does not happen (the outcome is
`panicked`, not `propagated` and not a normal return). -/
theorem C2_cex_panics_not_error_result :
    key_handler (.char 'a') SearchMode.mode dbBoom emptyApp
      = .panicked "boom" := by decide

/-- Claim C3 (refuted — code bug): pressing Down in the reachable state with
an empty result list and no selection sets the selection to `Some 0` while
`results.len() = 0`, violating the invariant
`selection.is_some() ⇒ selection.unwrap() < results.len()`. -/
theorem C3_down_breaks_bounds_on_empty :
    key_handler .down SearchMode.mode dbEmptyOk emptyApp
      = .ok { input := "", results := [], selection := some 0 } none ∧
    ¬ 0 < ([] : List History).length := by decide

/-- Claim C4: pressing Enter emits the command text of the currently selected
result row; if no row is selected or no row exists at the selected index, it
emits the raw typed input instead.  The hypothesis `hreach` is the session
invariant "no selection implies no results", established by the initial
requery and preserved by every key transition
(`requery_selNone_imp_empty`, `key_handler_preserves_selNone_imp_empty`). -/
theorem C4_enter_emits_selected_or_input (sm : SearchMode) (db : Database)
    (app : State) (hreach : app.selection = none → app.results = []) :
    (∀ k h, app.selection = some k → app.results.get? k = some h →
      key_handler (.char '\n') sm db app = .ok app (some h.command)) ∧
    (∀ k, app.selection = some k → app.results.get? k = none →
      key_handler (.char '\n') sm db app = .ok app (some app.input)) ∧
    (app.selection = none →
      key_handler (.char '\n') sm db app = .ok app (some app.input)) := by
  have hkey : ∀ i, app.selection = some i →
      key_handler (.char '\n') sm db app
        = .ok app (some (((app.results.get? i).map History.command).getD app.input)) := by
    intro i hsel
    simp only [key_handler, if_true, hsel, Option.getD_some]
  refine ⟨?_, ?_, ?_⟩
  · intro k h hsel hget
    rw [hkey k hsel, hget]
    rfl
  · intro k hsel hget
    rw [hkey k hsel, hget]
    rfl
  · intro hsel
    simp only [key_handler, if_true, hsel, Option.getD_none, hreach hsel,
      List.get?_nil, Option.map_none', Option.getD_none]

theorem C4_witness :
    key_handler (.char '\n') SearchMode.mode dbEmptyOk twoApp
      = .ok twoApp (some "one") :=
  (C4_enter_emits_selected_or_input SearchMode.mode dbEmptyOk twoApp
      (fun hc => absurd hc (by decide))).1 0 (hist "one") rfl rfl

/-- Claim C5: with `selection = Some k` and a digit key `c` between `'1'` and
`'9'` (value `d = c - '0'`), Alt+digit emits `results[k+d].command` when
`k + d` is in bounds and emits the raw input unchanged (same state, no error)
when it is out of bounds. -/
theorem C5_jump_select (sm : SearchMode) (db : Database) (app : State)
    (k : Nat) (c : Char) (hsel : app.selection = some k)
    (h1 : '1' ≤ c) (h9 : c ≤ '9') :
    (∀ h, app.results.get? (k + (c.toNat - '0'.toNat)) = some h →
      key_handler (.alt c) sm db app = .ok app (some h.command)) ∧
    (app.results.length ≤ k + (c.toNat - '0'.toNat) →
      key_handler (.alt c) sm db app = .ok app (some app.input)) := by
  have hkey : key_handler (.alt c) sm db app
      = .ok app (some (((app.results.get? (k + (c.toNat - '0'.toNat))).map
          History.command).getD app.input)) := by
    simp only [key_handler, if_pos (And.intro h1 h9), hsel]
  constructor
  · intro h hget
    rw [hkey, hget]
    rfl
  · intro hlen
    rw [hkey, List.get?_eq_none.mpr hlen]
    rfl

theorem C5_witness :
    key_handler (.alt '1') SearchMode.mode dbEmptyOk twoApp
      = .ok twoApp (some "two") :=
  (C5_jump_select SearchMode.mode dbEmptyOk twoApp 0 '1' rfl (by decide)
      (by decide)).1 (hist "two") rfl

/-- Claim C6: with `selection = Some k` (within bounds for the Up direction),
Down — and identically Ctrl-N — yields `Some (k-1)` for `k > 0` and is a
no-op at `k = 0`; Up — and identically Ctrl-P — yields `Some (k+1)` for
`k < len-1` and is a no-op at `k = len-1`. -/
theorem C6_move_saturates (sm : SearchMode) (db : Database) (app : State)
    (k : Nat) (hsel : app.selection = some k) :
    (0 < k →
      key_handler .down sm db app = .ok { app with selection := some (k - 1) } none) ∧
    (k = 0 → key_handler .down sm db app = .ok app none) ∧
    (k < app.results.length → k < app.results.length - 1 →
      key_handler .up sm db app = .ok { app with selection := some (k + 1) } none) ∧
    (k < app.results.length → k = app.results.length - 1 →
      key_handler .up sm db app = .ok app none) ∧
    key_handler (.ctrl 'n') sm db app = key_handler .down sm db app ∧
    key_handler (.ctrl 'p') sm db app = key_handler .up sm db app := by
  refine ⟨?_, ?_, ?_, ?_, ?_, ?_⟩
  · intro hk
    simp only [key_handler, moveDown, hsel]
    rw [if_neg (by omega : ¬ k = 0)]
  · intro hk
    subst hk
    simp only [key_handler, moveDown, hsel, if_true]
    rw [update_selection_eq app 0 hsel]
  · intro hk hk1
    have hu : usizeSub1 app.results.length = app.results.length - 1 := by
      unfold usizeSub1
      rw [if_neg (by omega : ¬ app.results.length = 0)]
    simp only [key_handler, moveUp, hsel, hu]
    rw [if_neg (by omega : ¬ app.results.length - 1 ≤ k)]
  · intro hk hk1
    have hu : usizeSub1 app.results.length = app.results.length - 1 := by
      unfold usizeSub1
      rw [if_neg (by omega : ¬ app.results.length = 0)]
    simp only [key_handler, moveUp, hsel, hu]
    rw [if_pos (by omega : app.results.length - 1 ≤ k), ← hk1,
      update_selection_eq app k hsel]
  · simp only [key_handler, if_true]
    rw [if_neg (by decide : ¬ ('n' = 'c' ∨ 'n' = 'd' ∨ 'n' = 'g')),
      if_neg (by decide : ¬ 'n' = 'u')]
  · simp only [key_handler, if_true]
    rw [if_neg (by decide : ¬ ('p' = 'c' ∨ 'p' = 'd' ∨ 'p' = 'g')),
      if_neg (by decide : ¬ 'p' = 'u'), if_neg (by decide : ¬ 'p' = 'n')]

theorem C6_witness :
    key_handler .down SearchMode.mode dbEmptyOk
        { twoApp with selection := some 1 }
      = .ok { twoApp with selection := some 0 } none :=
  (C6_move_saturates SearchMode.mode dbEmptyOk
      { twoApp with selection := some 1 } 1 rfl).1 (by decide)

/-- Claim C7 (amended): Alt+Backspace splits the input on single space
characters and removes the final segment — which is an empty segment when the
input ends in a space, so then only that trailing space is removed and other
whitespace (tabs, etc.) never separates words — collapsing to the empty
string when at most one segment remains, and triggers a requery with the new
input. -/
theorem C7_alt_backspace_space_segments (sm : SearchMode) (db : Database)
    (app : State) (hw : splitOnSpace app.input ≠ []) :
    key_handler (.alt '\x7f') sm db app
      = afterRequery { app with input := wordDeleted app.input } sm db :=
  altBackspace_requery sm db app hw

theorem C7_witness :
    key_handler (.alt '\x7f') SearchMode.mode dbEmptyOk
        { input := "a b", results := [], selection := none }
      = .ok { input := "a", results := [], selection := none } none :=
  (C7_alt_backspace_space_segments SearchMode.mode dbEmptyOk
      { input := "a b", results := [], selection := none }
      (by decide)).trans (by decide)

/-- Claim C7 counterexample: on the input `"a b "` (reachable by typing),
Alt+Backspace produces `"a b"` — the whitespace-delimited words before and
after are both `["a", "b"]`, so the last whitespace-delimited word `"b"` was
not removed; only the trailing space was. -/
theorem C7_cex_trailing_space :
    key_handler (.alt '\x7f') SearchMode.mode dbEmptyOk
        { input := "a b ", results := [], selection := none }
      = .ok { input := "a b", results := [], selection := none } none ∧
    wsWords "a b " = ["a", "b"] ∧ wsWords "a b" = ["a", "b"] := by decide

/-- Support: indexing commutes with `map`. -/
theorem get?_map_some {α β : Type} (f : α → β) (l : List α) (i : Nat) (a : α)
    (h : l.get? i = some a) : (l.map f).get? i = some (f a) := by
  induction l generalizing i with
  | nil => simp at h
  | cons x xs ih =>
    cases i with
    | zero =>
      simp only [List.get?_cons_zero, Option.some.injEq] at h
      subst h
      rfl
    | succ n =>
      simp only [List.get?_cons_succ] at h
      simp only [List.map_cons, List.get?_cons_succ]
      exact ih n h

/-- Claim C8: in the batch filter pipeline, a record is dropped by a
`before T` bound whenever `T` fails to parse or the record's timestamp
exceeds `T`, and by an `after T` bound whenever `T` fails to parse or the
record's timestamp precedes `T`; in particular a parse failure excludes every
record rather than acting as "no filter". -/
theorem C8_time_bounds_drop (parse : String → Option Int) (args : FilterArgs)
    (h : History) (l : List History) :
    (∀ T, args.before = some T → parse T = none →
      keepRecord parse args h = false) ∧
    (∀ T tv, args.before = some T → parse T = some tv → tv < h.timestamp →
      keepRecord parse args h = false) ∧
    (∀ T, args.after = some T → parse T = none →
      keepRecord parse args h = false) ∧
    (∀ T tv, args.after = some T → parse T = some tv → h.timestamp < tv →
      keepRecord parse args h = false) ∧
    (∀ T, args.before = some T → parse T = none →
      batchFilter parse args l = []) := by
  have hdropB : ∀ hh : History, ∀ T, args.before = some T → parse T = none →
      keepRecord parse args hh = false := by
    intro hh T hb hp
    simp [keepRecord, optCheck, hb, hp]
  refine ⟨fun T hb hp => hdropB h T hb hp, ?_, ?_, ?_, ?_⟩
  · intro T tv hb hp htv
    have hd : decide (h.timestamp ≤ tv) = false := decide_eq_false (by omega)
    simp [keepRecord, optCheck, hb, hp, hd]
  · intro T ha hp
    simp [keepRecord, optCheck, ha, hp]
  · intro T tv ha hp htv
    have hd : decide (tv ≤ h.timestamp) = false := decide_eq_false (by omega)
    simp [keepRecord, optCheck, ha, hp, hd]
  · intro T hb hp
    simp only [batchFilter]
    refine List.filter_eq_nil_iff.mpr ?_
    intro a _
    simp [hdropB a T hb hp]

theorem C8_witness :
    keepRecord (fun _ => none) argsBefore (hist "x") = false :=
  (C8_time_bounds_drop (fun _ => none) argsBefore (hist "x") []).1
    "yesterday" rfl rfl

/-- Claim C9: for every result row whose timestamp lies in the future of
`now` (negative elapsed time), the ago formatter clamps the elapsed duration
to zero and the row's ago string is exactly `"0s ago"`. -/
theorem C9_future_ago_clamped (st : State) (now : Int) (i : Nat) (h : History)
    (hi : st.results.get? i = some h) (hf : now < h.timestamp) :
    (st.durations now).get? i
      = some (durationStringOf h.duration, "0s ago") := by
  have hago : agoStringOf now h.timestamp = "0s ago" := by
    show (abbrevUnits (firstToken (formatDurationStr
        (if now - h.timestamp < 0 then 0 else (now - h.timestamp).toNat)))
      ++ " ago") = "0s ago"
    rw [if_pos (by omega : now - h.timestamp < 0)]
    decide
  unfold State.durations
  rw [get?_map_some _ _ _ _ hi, hago]

theorem C9_witness :
    (futureApp.durations 0).get? 0 = some ("0s", "0s ago") :=
  (C9_future_ago_clamped futureApp 0 0 histFuture rfl (by decide)).trans
    (by decide)

/-- Claim C10: with no row selected, Alt+digit emits nothing and leaves the
state (input, results, selection) unchanged — `selected()?` early-returns
`None` — rather than falling back to emitting the raw input. -/
theorem C10_jump_noop_unselected (sm : SearchMode) (db : Database)
    (app : State) (c : Char) (h1 : '1' ≤ c) (h9 : c ≤ '9')
    (hsel : app.selection = none) :
    key_handler (.alt c) sm db app = .ok app none := by
  simp only [key_handler, if_pos (And.intro h1 h9), hsel]

theorem C10_witness :
    key_handler (.alt '5') SearchMode.mode dbEmptyOk emptyApp
      = .ok emptyApp none :=
  C10_jump_noop_unselected SearchMode.mode dbEmptyOk emptyApp '5'
    (by decide) (by decide) rfl
